import Mathlib

/-!
# Verification of the dangerzone rust-wrapper core

Shallow embedding of `src/rust-wrapper/src/stream_reader.rs` (the pixel-stream
protocol reader) and `src/rust-wrapper/src/pdf_reconstructor.rs` (the PDF
reconstructor), together with theorems settling the specification claims.

A byte source models Rust's `Read` trait as consumed by the reader: a finite
run of available bytes followed by what the source does next (clean
end-of-stream, or a lower-level transport error of some `io::ErrorKind`).
Reader operations return the Rust `Result` as `Except` paired with the
advanced source state.
-/

namespace Dangerzone

/-- Model of `std::io::ErrorKind` as far as the code inspects it:
`UnexpectedEof` versus every other kind (`other` carries a code so distinct
transport failures stay distinct). -/
inductive IoErrorKind where
  | unexpectedEof : IoErrorKind
  | other : Nat → IoErrorKind
deriving DecidableEq, Repr

/-- What the byte source does once its buffered bytes run out: clean
end-of-stream, or a transport-level I/O failure of the given kind. -/
inductive SourceTail where
  | eof : SourceTail
  | ioErr : IoErrorKind → SourceTail
deriving DecidableEq, Repr

/-- A byte source: the bytes still available, then the tail behaviour.
Models any `R: Read` handed to `PixelStreamReader::new`. -/
structure ByteSource where
  data : List Nat
  tail : SourceTail
deriving DecidableEq, Repr

/-- Model of `Read::read_exact` on a `ByteSource`: succeeds with exactly `n`
bytes when they are available; otherwise consumes what is available and fails
with `UnexpectedEof` (clean end) or the transport error's kind. -/
def readExact (n : Nat) (s : ByteSource) : Except IoErrorKind (List Nat) × ByteSource :=
  if n ≤ s.data.length then
    (Except.ok (s.data.take n), ⟨s.data.drop n, s.tail⟩)
  else
    match s.tail with
    | SourceTail.eof => (Except.error IoErrorKind.unexpectedEof, ⟨[], s.tail⟩)
    | SourceTail.ioErr k => (Except.error k, ⟨[], s.tail⟩)

/-- Model of `byteorder`'s `read_u16::<BigEndian>`: read two bytes and
combine them big-endian. A short read fails like `read_exact`. -/
def readU16BE (s : ByteSource) : Except IoErrorKind Nat × ByteSource :=
  match s.data with
  | b0 :: b1 :: rest => (Except.ok (b0 * 256 + b1), ⟨rest, s.tail⟩)
  | _ =>
    match s.tail with
    | SourceTail.eof => (Except.error IoErrorKind.unexpectedEof, ⟨[], s.tail⟩)
    | SourceTail.ioErr k => (Except.error k, ⟨[], s.tail⟩)

/-- Embedding of `struct PageData`: width, height (u16 values, so `< 65536`),
and the raw RGB pixel buffer. The fields are public in the source, so the
structure itself carries no invariant. -/
structure PageData where
  width : Nat
  height : Nat
  pixels : List Nat
deriving DecidableEq, Repr

/-- Embedding of `enum StreamError`. `Io` is the `#[from] io::Error` variant
and records the wrapped error's kind. -/
inductive StreamError where
  | Io : IoErrorKind → StreamError
  | InvalidPageCount : Nat → StreamError
  | InvalidPageDimensions : (width : Nat) → (height : Nat) → StreamError
  | InvalidPixelData : (expected : Nat) → (actual : Nat) → StreamError
  | UnexpectedEof : StreamError
deriving DecidableEq, Repr

/-- Embedding of `PageData::new`: validates `pixels.len() == width*height*3`
and fails with `InvalidPixelData` otherwise. -/
def PageData.new (width height : Nat) (pixels : List Nat) :
    Except StreamError PageData :=
  let expected_size := width * height * 3
  if pixels.length ≠ expected_size then
    Except.error (StreamError.InvalidPixelData expected_size pixels.length)
  else
    Except.ok ⟨width, height, pixels⟩

/-- Embedding of `PageData::pixel_count`. -/
def PageData.pixel_count (p : PageData) : Nat :=
  p.width * p.height

/-- Embedding of `PixelStreamReader::read_page_count`: decode one big-endian
u16 (a short read or transport failure propagates through `?` as the `Io`
variant), then reject a decoded count of zero. -/
def readPageCount (s : ByteSource) : Except StreamError Nat × ByteSource :=
  match readU16BE s with
  | (Except.error k, s') => (Except.error (StreamError.Io k), s')
  | (Except.ok count, s') =>
    if count = 0 then
      (Except.error (StreamError.InvalidPageCount count), s')
    else
      (Except.ok count, s')

/-- Embedding of `PixelStreamReader::read_page`: decode width and height
(big-endian u16 each, failures propagating as `Io`), reject zero dimensions,
then read exactly `width*height*3` pixel bytes, remapping a short read of
kind `UnexpectedEof` to the dedicated `UnexpectedEof` stream error. -/
def readPage (s : ByteSource) : Except StreamError PageData × ByteSource :=
  match readU16BE s with
  | (Except.error k, s1) => (Except.error (StreamError.Io k), s1)
  | (Except.ok width, s1) =>
    match readU16BE s1 with
    | (Except.error k, s2) => (Except.error (StreamError.Io k), s2)
    | (Except.ok height, s2) =>
      if width = 0 ∨ height = 0 then
        (Except.error (StreamError.InvalidPageDimensions width height), s2)
      else
        let num_bytes := width * height * 3
        match readExact num_bytes s2 with
        | (Except.error k, s3) =>
          if k = IoErrorKind.unexpectedEof then
            (Except.error StreamError.UnexpectedEof, s3)
          else
            (Except.error (StreamError.Io k), s3)
        | (Except.ok pixels, s3) => (Except.ok ⟨width, height, pixels⟩, s3)

/-- The loop body of `read_all_pages`: read `n` pages sequentially,
aborting on the first failure. -/
def readPages : Nat → ByteSource → Except StreamError (List PageData) × ByteSource
  | 0, s => (Except.ok [], s)
  | n + 1, s =>
    match readPage s with
    | (Except.error e, s') => (Except.error e, s')
    | (Except.ok p, s') =>
      match readPages n s' with
      | (Except.error e, s'') => (Except.error e, s'')
      | (Except.ok ps, s'') => (Except.ok (p :: ps), s'')

/-- Embedding of `PixelStreamReader::read_all_pages`: read the page count,
then that many pages in order. -/
def readAllPages (s : ByteSource) : Except StreamError (List PageData) × ByteSource :=
  match readPageCount s with
  | (Except.error e, s') => (Except.error e, s')
  | (Except.ok n, s') => readPages n s'

/-- Source state after `i` sequential `read_page` calls starting from `s`. -/
def pageState (s : ByteSource) : Nat → ByteSource
  | 0 => s
  | i + 1 => pageState (readPage s).2 i

/-- Big-endian two-byte encoding of a u16 value, as `u16::to_be_bytes`
produces it (mirrors the test helper `create_test_stream`). -/
def u16BE (n : Nat) : List Nat :=
  [n / 256 % 256, n % 256]

/-- Wire encoding of one page: width, height (big-endian u16), then the
pixel bytes (mirrors the test helper `create_test_stream`). -/
def encodePage (p : PageData) : List Nat :=
  u16BE p.width ++ u16BE p.height ++ p.pixels

/-- Wire encoding of a whole stream: big-endian u16 page count, then each
page's encoding in order. -/
def encodeStream (ps : List PageData) : List Nat :=
  u16BE ps.length ++ (ps.map encodePage).flatten

/-- Validity of a page record as a wire-encodable u16-framed page: nonzero
u16 dimensions and the pixel-buffer length invariant. -/
def PageData.Valid (p : PageData) : Prop :=
  0 < p.width ∧ p.width ≤ 65535 ∧ 0 < p.height ∧ p.height ≤ 65535 ∧
    p.pixels.length = p.width * p.height * 3

instance (p : PageData) : Decidable p.Valid := by
  unfold PageData.Valid; infer_instance

theorem readU16BE_u16BE (n : Nat) (hn : n ≤ 65535) (rest : List Nat) (t : SourceTail) :
    readU16BE ⟨u16BE n ++ rest, t⟩ = (Except.ok n, ⟨rest, t⟩) := by
  simp only [u16BE, List.cons_append, List.nil_append, readU16BE]
  congr 2
  omega

theorem readExact_of_length (bs rest : List Nat) (t : SourceTail) :
    readExact bs.length ⟨bs ++ rest, t⟩ = (Except.ok bs, ⟨rest, t⟩) := by
  simp [readExact, List.take_left, List.drop_left]

theorem readPage_encodePage (p : PageData) (hp : p.Valid) (rest : List Nat)
    (t : SourceTail) :
    readPage ⟨encodePage p ++ rest, t⟩ = (Except.ok p, ⟨rest, t⟩) := by
  obtain ⟨hw0, hw, hh0, hh, hlen⟩ := hp
  have hiff : ¬(p.width = 0 ∨ p.height = 0) := by omega
  have hpx : readExact (p.width * p.height * 3) ⟨p.pixels ++ rest, t⟩ =
      (Except.ok p.pixels, ⟨rest, t⟩) := by
    rw [← hlen]; exact readExact_of_length p.pixels rest t
  simp only [encodePage, List.append_assoc, readPage,
    readU16BE_u16BE p.width hw _ t, readU16BE_u16BE p.height hh _ t,
    if_neg hiff, hpx]

theorem readPages_encode (ps : List PageData) (hps : ∀ p ∈ ps, p.Valid)
    (rest : List Nat) (t : SourceTail) :
    readPages ps.length ⟨(ps.map encodePage).flatten ++ rest, t⟩ =
      (Except.ok ps, ⟨rest, t⟩) := by
  induction ps generalizing rest with
  | nil => simp [readPages]
  | cons p ps ih =>
    have hp := hps p (List.mem_cons_self p ps)
    have hrec := ih (fun q hq => hps q (List.mem_cons_of_mem p hq)) rest
    simp only [List.length_cons, List.map_cons, List.flatten_cons, List.append_assoc,
      readPages, readPage_encodePage p hp _ t, hrec]

theorem readExact_ok_length (n : Nat) (s : ByteSource) (bs : List Nat) (s' : ByteSource)
    (h : readExact n s = (Except.ok bs, s')) : bs.length = n := by
  unfold readExact at h
  split at h
  · rename_i hle
    obtain ⟨h1, h2⟩ := Prod.mk.injEq .. ▸ h
    cases h1
    simpa using hle
  · split at h <;> simp at h

theorem readPage_ok_shape (s : ByteSource) (p : PageData) (s' : ByteSource)
    (h : readPage s = (Except.ok p, s')) :
    p.pixels.length = p.width * p.height * 3 ∧ 0 < p.width ∧ 0 < p.height := by
  unfold readPage at h
  split at h
  · simp at h
  · rename_i width s1 heq1
    split at h
    · simp at h
    · rename_i height s2 heq2
      split at h
      · simp at h
      · rename_i hnz
        dsimp only at h
        split at h
        · split at h <;> simp at h
        · rename_i pixels s3 hex
          obtain ⟨h1, h2⟩ := Prod.mk.injEq .. ▸ h
          obtain rfl : PageData.mk width height pixels = p := by
            simpa using h1
          have := readExact_ok_length _ _ _ _ hex
          simp only at this ⊢
          omega

/-- C2: encoding any sequence of valid pages into the wire format (big-endian
u16 page count, then per page big-endian u16 width and height and the pixel
bytes) and decoding with `read_all_pages` succeeds and reproduces exactly the
same pages, in the same order, consuming exactly the encoded bytes. -/
theorem readAllPages_roundTrip (ps : List PageData) (hne : 1 ≤ ps.length)
    (hcount : ps.length ≤ 65535) (hps : ∀ p ∈ ps, p.Valid)
    (rest : List Nat) (t : SourceTail) :
    readAllPages ⟨encodeStream ps ++ rest, t⟩ = (Except.ok ps, ⟨rest, t⟩) := by
  have h0 : ¬ ps.length = 0 := by omega
  simp only [encodeStream, List.append_assoc, readAllPages, readPageCount,
    readU16BE_u16BE ps.length hcount _ t, if_neg h0,
    readPages_encode ps hps rest t]

/-- Witness for C2 at a concrete one-page stream. -/
theorem readAllPages_roundTrip_witness :
    readAllPages ⟨encodeStream [⟨1, 1, [9, 9, 9]⟩] ++ [], SourceTail.eof⟩ =
      (Except.ok [⟨1, 1, [9, 9, 9]⟩], ⟨[], SourceTail.eof⟩) :=
  readAllPages_roundTrip [⟨1, 1, [9, 9, 9]⟩] (by decide) (by decide) (by decide)
    [] SourceTail.eof

/-- C3: on any source whose first two bytes decode big-endian to zero,
`read_page_count` (and hence `read_all_pages`) fails with
`InvalidPageCount(0)`, leaving every byte beyond the first two unread. -/
theorem readPageCount_zeroCount (b0 b1 : Nat) (h : b0 * 256 + b1 = 0)
    (rest : List Nat) (t : SourceTail) :
    readPageCount ⟨b0 :: b1 :: rest, t⟩ =
      (Except.error (StreamError.InvalidPageCount 0), ⟨rest, t⟩) ∧
    readAllPages ⟨b0 :: b1 :: rest, t⟩ =
      (Except.error (StreamError.InvalidPageCount 0), ⟨rest, t⟩) := by
  obtain rfl : b0 = 0 := by omega
  obtain rfl : b1 = 0 := by omega
  simp [readPageCount, readAllPages, readU16BE]

/-- Witness for C3 at the stream `0x00 0x00`. -/
theorem readPageCount_zeroCount_witness :
    readPageCount ⟨0 :: 0 :: [], SourceTail.eof⟩ =
      (Except.error (StreamError.InvalidPageCount 0), ⟨[], SourceTail.eof⟩) ∧
    readAllPages ⟨0 :: 0 :: [], SourceTail.eof⟩ =
      (Except.error (StreamError.InvalidPageCount 0), ⟨[], SourceTail.eof⟩) :=
  readPageCount_zeroCount 0 0 rfl [] SourceTail.eof

/-- C4: a page header with width zero or height zero makes `read_page` fail
with `InvalidPageDimensions{width, height}` — an error distinct from the
zero-page-count error — with every byte after the four header bytes
(in particular all pixel bytes) left unconsumed. -/
theorem readPage_zeroDimensions (w h : Nat) (hw : w ≤ 65535) (hh : h ≤ 65535)
    (hzero : w = 0 ∨ h = 0) (rest : List Nat) (t : SourceTail) :
    readPage ⟨u16BE w ++ u16BE h ++ rest, t⟩ =
      (Except.error (StreamError.InvalidPageDimensions w h), ⟨rest, t⟩) ∧
    ∀ n, StreamError.InvalidPageDimensions w h ≠ StreamError.InvalidPageCount n := by
  refine ⟨?_, fun n hne => StreamError.noConfusion hne⟩
  have e1 : readU16BE ⟨u16BE w ++ (u16BE h ++ rest), t⟩ =
      (Except.ok w, ⟨u16BE h ++ rest, t⟩) := readU16BE_u16BE w hw _ t
  have e2 : readU16BE ⟨u16BE h ++ rest, t⟩ = (Except.ok h, ⟨rest, t⟩) :=
    readU16BE_u16BE h hh rest t
  simp only [List.append_assoc, readPage, e1, e2, if_pos hzero]

/-- Witness for C4 at the header `width = 0, height = 100`. -/
theorem readPage_zeroDimensions_witness :
    readPage ⟨u16BE 0 ++ u16BE 100 ++ [7, 7], SourceTail.eof⟩ =
      (Except.error (StreamError.InvalidPageDimensions 0 100),
        ⟨[7, 7], SourceTail.eof⟩) ∧
    ∀ n, StreamError.InvalidPageDimensions 0 100 ≠ StreamError.InvalidPageCount n :=
  readPage_zeroDimensions 0 100 (by decide) (by decide) (Or.inl rfl) [7, 7]
    SourceTail.eof

/-- C5: for a page with nonzero dimensions whose source ends before the
`width*height*3` pixel bytes are available, `read_page` fails with the
dedicated `UnexpectedEof` stream error, which is distinct from the generic
`Io` wrapper, and a successful `read_page` never returns fewer pixel bytes
than declared. -/
theorem readPage_truncatedPixels (w h : Nat) (hw0 : 0 < w) (hw : w ≤ 65535)
    (hh0 : 0 < h) (hh : h ≤ 65535) (avail : List Nat)
    (hshort : avail.length < w * h * 3) :
    readPage ⟨u16BE w ++ u16BE h ++ avail, SourceTail.eof⟩ =
      (Except.error StreamError.UnexpectedEof, ⟨[], SourceTail.eof⟩) ∧
    (∀ k, StreamError.UnexpectedEof ≠ StreamError.Io k) ∧
    (∀ s p s', readPage s = (Except.ok p, s') →
      ¬ p.pixels.length < p.width * p.height * 3) := by
  refine ⟨?_, fun k hne => StreamError.noConfusion hne,
    fun s p s' hok => by have := readPage_ok_shape s p s' hok; omega⟩
  have hnz : ¬ (w = 0 ∨ h = 0) := by omega
  have hex : readExact (w * h * 3) ⟨avail, SourceTail.eof⟩ =
      (Except.error IoErrorKind.unexpectedEof, ⟨[], SourceTail.eof⟩) := by
    unfold readExact
    rw [if_neg (by simpa using hshort)]
  have e1 : readU16BE ⟨u16BE w ++ (u16BE h ++ avail), SourceTail.eof⟩ =
      (Except.ok w, ⟨u16BE h ++ avail, SourceTail.eof⟩) :=
    readU16BE_u16BE w hw _ SourceTail.eof
  have e2 : readU16BE ⟨u16BE h ++ avail, SourceTail.eof⟩ =
      (Except.ok h, ⟨avail, SourceTail.eof⟩) :=
    readU16BE_u16BE h hh avail SourceTail.eof
  simp only [List.append_assoc, readPage, e1, e2, if_neg hnz, hex, if_pos rfl,
    if_true]

/-- Witness for C5: a declared 2x2 page (12 expected bytes) with only 6
bytes supplied. -/
theorem readPage_truncatedPixels_witness :
    readPage ⟨u16BE 2 ++ u16BE 2 ++ [255, 255, 255, 255, 255, 255], SourceTail.eof⟩ =
      (Except.error StreamError.UnexpectedEof, ⟨[], SourceTail.eof⟩) ∧
    (∀ k, StreamError.UnexpectedEof ≠ StreamError.Io k) ∧
    (∀ s p s', readPage s = (Except.ok p, s') →
      ¬ p.pixels.length < p.width * p.height * 3) :=
  readPage_truncatedPixels 2 2 (by decide) (by decide) (by decide) (by decide)
    [255, 255, 255, 255, 255, 255] (by decide)

/-- C6 counterexample: on the empty source ending cleanly, `read_page_count`
does not return the dedicated `UnexpectedEof` stream error; it returns the
generic `Io` variant (wrapping an underlying error of end-of-stream kind). -/
theorem readPageCount_short_counterexample :
    (readPageCount ⟨[], SourceTail.eof⟩).1 ≠
      Except.error StreamError.UnexpectedEof ∧
    (readPageCount ⟨[], SourceTail.eof⟩).1 =
      Except.error (StreamError.Io IoErrorKind.unexpectedEof) := by
  refine ⟨fun hcon => ?_, rfl⟩
  exact StreamError.noConfusion (Except.error.inj hcon)

/-- C6 amended: a source that ends before the two page-count bytes are
available makes `read_page_count` fail with the `Io` wrapper variant whose
wrapped kind is `UnexpectedEof` — not with the dedicated `UnexpectedEof`
stream error. -/
theorem readPageCount_short (data : List Nat) (hshort : data.length < 2) :
    readPageCount ⟨data, SourceTail.eof⟩ =
      (Except.error (StreamError.Io IoErrorKind.unexpectedEof),
        ⟨[], SourceTail.eof⟩) := by
  match data, hshort with
  | [], _ => rfl
  | [b], _ => rfl

/-- Witness for the amended C6 at the empty source. -/
theorem readPageCount_short_witness :
    readPageCount ⟨[], SourceTail.eof⟩ =
      (Except.error (StreamError.Io IoErrorKind.unexpectedEof),
        ⟨[], SourceTail.eof⟩) :=
  readPageCount_short [] (by decide)

/-- C7: `PageData::new` succeeds exactly when the buffer length equals
`width*height*3`, and otherwise fails with `InvalidPixelData` carrying the
expected and actual byte counts. -/
theorem PageData_new_spec (w h : Nat) (px : List Nat) :
    (px.length = w * h * 3 → PageData.new w h px = Except.ok ⟨w, h, px⟩) ∧
    (px.length ≠ w * h * 3 →
      PageData.new w h px =
        Except.error (StreamError.InvalidPixelData (w * h * 3) px.length)) := by
  constructor <;> intro hlen <;> simp [PageData.new, hlen]

/-- Witness for C7: a correctly sized and a wrongly sized construction. -/
theorem PageData_new_spec_witness :
    PageData.new 2 2 (List.replicate 12 255) =
      Except.ok ⟨2, 2, List.replicate 12 255⟩ ∧
    PageData.new 2 2 (List.replicate 10 255) =
      Except.error (StreamError.InvalidPixelData 12 10) :=
  ⟨(PageData_new_spec 2 2 (List.replicate 12 255)).1 (by decide),
    (PageData_new_spec 2 2 (List.replicate 10 255)).2 (by decide)⟩

/-- Embedding of `enum PdfError` from the PDF reconstructor. -/
inductive PdfError where
  | NoPages : PdfError
  | PdfCreation : String → PdfError
  | InvalidDimensions : (width : Nat) → (height : Nat) → PdfError
  | ImageCreation : String → PdfError
deriving DecidableEq, Repr

/-- One page of the in-memory PDF document being built: its physical size in
millimetres (the unit `printpdf`'s `Mm` wrapper carries) and, once
`add_page_image` has run, the raster image placed on its single layer. -/
structure PdfPage where
  widthMm : ℚ
  heightMm : ℚ
  image : Option PageData
deriving DecidableEq, Repr

/-- The in-memory PDF document built through `printpdf`'s `PdfDocument`
reference. `doc.save` serializes exactly this page list in order, so the
document value stands for the serialized output. -/
structure PdfDocument where
  title : String
  pages : List PdfPage
deriving DecidableEq, Repr

/-- Embedding of `printpdf`'s `PdfDocument::new`: a fresh document holding
one page of the given size, returning the index of that page. -/
def PdfDocument.new (title : String) (wMm hMm : ℚ) : PdfDocument × Nat :=
  (⟨title, [⟨wMm, hMm, none⟩]⟩, 0)

/-- Embedding of `printpdf`'s `add_page`: append a page of the given size
and return its index. -/
def PdfDocument.add_page (doc : PdfDocument) (wMm hMm : ℚ) : PdfDocument × Nat :=
  (⟨doc.title, doc.pages ++ [⟨wMm, hMm, none⟩]⟩, doc.pages.length)

/-- Embedding of `struct PdfReconstructor`: the configured resolution in
pixels per inch. The source's `f32` arithmetic is modelled exactly over `ℚ`. -/
structure PdfReconstructor where
  dpi : ℚ
deriving DecidableEq, Repr

/-- Embedding of `DEFAULT_DPI` (150.0, matching the Python side). -/
def DEFAULT_DPI : ℚ := 150

/-- Embedding of `PdfReconstructor::new` via `Default`. -/
def PdfReconstructor.new : PdfReconstructor :=
  ⟨DEFAULT_DPI⟩

/-- Embedding of `PdfReconstructor::with_dpi`. -/
def PdfReconstructor.with_dpi (dpi : ℚ) : PdfReconstructor :=
  ⟨dpi⟩

/-- Embedding of `PdfReconstructor::pixels_to_points`:
`(pixels / dpi) * 72`. -/
def pixels_to_points (r : PdfReconstructor) (pixels : Nat) : ℚ :=
  (pixels : ℚ) / r.dpi * 72

/-- Embedding of `PdfReconstructor::points_to_mm`: `points * 0.352778`. -/
def points_to_mm (points : ℚ) : ℚ :=
  points * (352778 / 1000000)

/-- Embedding of `PdfReconstructor::create_rgb_image`: the `image` crate's
`ImageBuffer::from_raw` succeeds iff the buffer holds at least
`width*height*3` bytes; on `None` the code raises `InvalidDimensions`. -/
def create_rgb_image (page : PageData) : Except PdfError PageData :=
  if page.pixels.length < page.width * page.height * 3 then
    Except.error (PdfError.InvalidDimensions page.width page.height)
  else
    Except.ok page

/-- Mark the page at the given index as carrying the given raster image. -/
def setPageImage : List PdfPage → Nat → PageData → List PdfPage
  | [], _, _ => []
  | pg :: pgs, 0, p => ⟨pg.widthMm, pg.heightMm, some p⟩ :: pgs
  | pg :: pgs, i + 1, p => pg :: setPageImage pgs i p

/-- Embedding of `PdfReconstructor::add_page_image`: build the RGB image and
place it on the page at `idx`, scaled to the full page. -/
def add_page_image (doc : PdfDocument) (idx : Nat) (page : PageData) :
    Except PdfError PdfDocument :=
  match create_rgb_image page with
  | Except.error e => Except.error e
  | Except.ok img => Except.ok ⟨doc.title, setPageImage doc.pages idx img⟩

/-- The loop of `reconstruct` over the pages after the first: validate
dimensions, append a sized page, place the image. -/
def reconstruct_rest (r : PdfReconstructor) (doc : PdfDocument) :
    List PageData → Except PdfError PdfDocument
  | [] => Except.ok doc
  | page :: ps =>
    if page.width = 0 ∨ page.height = 0 then
      Except.error (PdfError.InvalidDimensions page.width page.height)
    else
      let width_pt := pixels_to_points r page.width
      let height_pt := pixels_to_points r page.height
      let dp := doc.add_page (points_to_mm width_pt) (points_to_mm height_pt)
      match add_page_image dp.1 dp.2 page with
      | Except.error e => Except.error e
      | Except.ok doc2 => reconstruct_rest r doc2 ps

/-- Embedding of `PdfReconstructor::reconstruct`: reject an empty sequence,
create the document sized to the first page, image every page in order.
The final `doc.save` serialization is abstracted: the returned document
value stands for the serialized byte buffer. -/
def reconstruct (r : PdfReconstructor) (pages : List PageData) :
    Except PdfError PdfDocument :=
  match pages with
  | [] => Except.error PdfError.NoPages
  | first_page :: rest =>
    if first_page.width = 0 ∨ first_page.height = 0 then
      Except.error (PdfError.InvalidDimensions first_page.width first_page.height)
    else
      let first_width_pt := pixels_to_points r first_page.width
      let first_height_pt := pixels_to_points r first_page.height
      let dp := PdfDocument.new "Dangerzone Safe PDF"
        (points_to_mm first_width_pt) (points_to_mm first_height_pt)
      match add_page_image dp.1 dp.2 first_page with
      | Except.error e => Except.error e
      | Except.ok doc1 => reconstruct_rest r doc1 rest

theorem pageState_succ_of_readPage (s s₁ : ByteSource) (r : Except StreamError PageData)
    (hrp : readPage s = (r, s₁)) (i : Nat) :
    pageState s (i + 1) = pageState s₁ i := by
  rw [pageState, hrp]

theorem readPages_succ_err (n : Nat) (s s₁ : ByteSource) (e : StreamError)
    (hrp : readPage s = (Except.error e, s₁)) :
    readPages (n + 1) s = (Except.error e, s₁) := by
  rw [readPages, hrp]

theorem readPages_succ_ok (n : Nat) (s s₁ : ByteSource) (p : PageData)
    (hrp : readPage s = (Except.ok p, s₁)) :
    readPages (n + 1) s =
      match readPages n s₁ with
      | (Except.error e, s'') => (Except.error e, s'')
      | (Except.ok ps, s'') => (Except.ok (p :: ps), s'') := by
  rw [readPages, hrp]

theorem readPages_ok_chain (n : Nat) (s : ByteSource) (ps : List PageData)
    (s' : ByteSource) (h : readPages n s = (Except.ok ps, s')) :
    ps.length = n ∧ s' = pageState s n ∧
      ∀ i, i < n → readPage (pageState s i) =
        (Except.ok (ps.getD i ⟨0, 0, []⟩), pageState s (i + 1)) := by
  induction n generalizing s ps s' with
  | zero =>
    obtain ⟨h1, h2⟩ := Prod.mk.injEq .. ▸ h
    obtain rfl : [] = ps := by simpa using h1
    exact ⟨rfl, h2.symm, fun i hi => absurd hi (Nat.not_lt_zero i)⟩
  | succ n ih =>
    rcases hrp : readPage s with ⟨rp, s₁⟩
    cases rp with
    | error e =>
      rw [readPages_succ_err n s s₁ e hrp] at h
      simp at h
    | ok p =>
      rw [readPages_succ_ok n s s₁ p hrp] at h
      rcases hrec : readPages n s₁ with ⟨rr, s₂⟩
      rw [hrec] at h
      cases rr with
      | error e => simp at h
      | ok ps₁ =>
        obtain ⟨h1, h2⟩ := Prod.mk.injEq .. ▸ h
        obtain rfl : p :: ps₁ = ps := by simpa using h1
        subst h2
        obtain ⟨hlen, hs₂, hchain⟩ := ih s₁ ps₁ s₂ hrec
        refine ⟨by simp [hlen], ?_, ?_⟩
        · rw [pageState_succ_of_readPage s s₁ _ hrp n, hs₂]
        · intro i hi
          cases i with
          | zero =>
            rw [pageState, pageState_succ_of_readPage s s₁ _ hrp 0, pageState, hrp]
            simp
          | succ j =>
            rw [pageState_succ_of_readPage s s₁ _ hrp j,
              pageState_succ_of_readPage s s₁ _ hrp (j + 1)]
            simpa using hchain j (by omega)

theorem readPages_error_at (i : Nat) : ∀ (n : Nat) (s : ByteSource) (e : StreamError),
    i < n →
    (∀ j, j < i → ∃ p s₂, readPage (pageState s j) = (Except.ok p, s₂)) →
    (readPage (pageState s i)).1 = Except.error e →
    (readPages n s).1 = Except.error e := by
  induction i with
  | zero =>
    intro n s e hi hok herr
    obtain ⟨m, rfl⟩ : ∃ m, n = m + 1 := ⟨n - 1, by omega⟩
    rcases hrp : readPage s with ⟨rp, s₁⟩
    rw [pageState] at herr
    rw [hrp] at herr
    cases rp with
    | error e' =>
      obtain rfl : e' = e := by simpa using herr
      rw [readPages, hrp]
    | ok p => simp at herr
  | succ j ih =>
    intro n s e hi hok herr
    obtain ⟨m, rfl⟩ : ∃ m, n = m + 1 := ⟨n - 1, by omega⟩
    obtain ⟨p, s₂, hrp⟩ := hok 0 (Nat.succ_pos j)
    rw [pageState] at hrp
    have hstep : ∀ k, pageState s (k + 1) = pageState s₂ k :=
      pageState_succ_of_readPage s s₂ _ hrp
    have hok' : ∀ k, k < j → ∃ q s₄, readPage (pageState s₂ k) = (Except.ok q, s₄) := by
      intro k hk
      rw [← hstep k]
      exact hok (k + 1) (by omega)
    have herr' : (readPage (pageState s₂ j)).1 = Except.error e := by
      rw [← hstep j]; exact herr
    have h1 := ih m s₂ e (by omega) hok' herr'
    rw [readPages_succ_ok m s s₂ p hrp]
    rcases hrec : readPages m s₂ with ⟨rr, s₃⟩
    rw [hrec] at h1
    have h2 : rr = Except.error e := h1
    subst h2
    rfl

/-- C1: `read_all_pages` first decodes the page count; on success the result
has exactly that many pages, the i-th being the value of the i-th sequential
`read_page` call; and if the page chain fails at any step after a prefix of
successes, the whole call returns that step's error (the error result carries
no partial page sequence). -/
theorem readAllPages_sequential (s : ByteSource) :
    (∀ ps s', readAllPages s = (Except.ok ps, s') →
      ∃ s₁, readPageCount s = (Except.ok ps.length, s₁) ∧
        s' = pageState s₁ ps.length ∧
        ∀ i, i < ps.length →
          readPage (pageState s₁ i) =
            (Except.ok (ps.getD i ⟨0, 0, []⟩), pageState s₁ (i + 1))) ∧
    (∀ n s₁ i e, readPageCount s = (Except.ok n, s₁) → i < n →
      (∀ j, j < i → ∃ p s₂, readPage (pageState s₁ j) = (Except.ok p, s₂)) →
      (readPage (pageState s₁ i)).1 = Except.error e →
      (readAllPages s).1 = Except.error e) := by
  constructor
  · intro ps s' h
    rw [readAllPages] at h
    rcases hpc : readPageCount s with ⟨rc, s₁⟩
    rw [hpc] at h
    cases rc with
    | error e => simp at h
    | ok n =>
      have h' : readPages n s₁ = (Except.ok ps, s') := h
      obtain ⟨hlen, hs', hchain⟩ := readPages_ok_chain n s₁ ps s' h'
      exact ⟨s₁, by rw [hlen], by rw [hlen]; exact hs', by rw [hlen]; exact hchain⟩
  · intro n s₁ i e hpc hi hok herr
    rw [readAllPages, hpc]
    exact readPages_error_at i n s₁ e hi hok herr

/-- Witness for C1: the success direction on a concrete one-page stream, and
the failure direction on a stream whose single page has a zero width. -/
theorem readAllPages_sequential_witness :
    (∃ s₁, readPageCount ⟨[0, 1, 0, 1, 0, 1, 9, 9, 9], SourceTail.eof⟩ =
        (Except.ok ([(⟨1, 1, [9, 9, 9]⟩ : PageData)]).length, s₁) ∧
      (⟨[], SourceTail.eof⟩ : ByteSource) =
        pageState s₁ ([(⟨1, 1, [9, 9, 9]⟩ : PageData)]).length ∧
      ∀ i, i < ([(⟨1, 1, [9, 9, 9]⟩ : PageData)]).length →
        readPage (pageState s₁ i) =
          (Except.ok (([(⟨1, 1, [9, 9, 9]⟩ : PageData)]).getD i ⟨0, 0, []⟩),
            pageState s₁ (i + 1))) ∧
    (readAllPages ⟨[0, 1, 0, 0, 0, 5], SourceTail.eof⟩).1 =
      Except.error (StreamError.InvalidPageDimensions 0 5) :=
  ⟨(readAllPages_sequential ⟨[0, 1, 0, 1, 0, 1, 9, 9, 9], SourceTail.eof⟩).1
      [⟨1, 1, [9, 9, 9]⟩] ⟨[], SourceTail.eof⟩ rfl,
    (readAllPages_sequential ⟨[0, 1, 0, 0, 0, 5], SourceTail.eof⟩).2
      1 ⟨[0, 0, 0, 5], SourceTail.eof⟩ 0 (StreamError.InvalidPageDimensions 0 5)
      rfl (by omega) (fun j hj => absurd hj (Nat.not_lt_zero j)) rfl⟩

theorem readPages_mem (n : Nat) (s : ByteSource) (ps : List PageData)
    (s' : ByteSource) (h : readPages n s = (Except.ok ps, s')) :
    ∀ p, p ∈ ps → ∃ s₀ s₁, readPage s₀ = (Except.ok p, s₁) := by
  induction n generalizing s ps s' with
  | zero =>
    obtain ⟨h1, h2⟩ := Prod.mk.injEq .. ▸ h
    obtain rfl : [] = ps := by simpa using h1
    intro p hp
    simp at hp
  | succ n ih =>
    rcases hrp : readPage s with ⟨rp, s₁⟩
    cases rp with
    | error e =>
      rw [readPages_succ_err n s s₁ e hrp] at h
      simp at h
    | ok q =>
      rw [readPages_succ_ok n s s₁ q hrp] at h
      rcases hrec : readPages n s₁ with ⟨rr, s₂⟩
      rw [hrec] at h
      cases rr with
      | error e => simp at h
      | ok ps₁ =>
        obtain ⟨h1, h2⟩ := Prod.mk.injEq .. ▸ h
        obtain rfl : q :: ps₁ = ps := by simpa using h1
        intro p hp
        rcases List.mem_cons.mp hp with rfl | hp₁
        · exact ⟨s, s₁, hrp⟩
        · exact ih s₁ ps₁ s₂ hrec p hp₁

/-- C10: every page produced by a successful `read_page` satisfies the
buffer-length invariant `pixels.length = width*height*3` (so the literal
construction agrees with the validating constructor `PageData::new`), and
hence every element of a successful `read_all_pages` result satisfies it. -/
theorem readPage_invariant (s : ByteSource) :
    (∀ p s', readPage s = (Except.ok p, s') →
      p.pixels.length = p.width * p.height * 3 ∧
        PageData.new p.width p.height p.pixels = Except.ok p) ∧
    (∀ ps s', readAllPages s = (Except.ok ps, s') →
      ∀ p, p ∈ ps → p.pixels.length = p.width * p.height * 3) := by
  constructor
  · intro p s' h
    obtain ⟨hlen, -, -⟩ := readPage_ok_shape s p s' h
    refine ⟨hlen, ?_⟩
    simp [PageData.new, hlen]
  · intro ps s' h p hp
    rw [readAllPages] at h
    rcases hpc : readPageCount s with ⟨rc, s₁⟩
    rw [hpc] at h
    cases rc with
    | error e => simp at h
    | ok n =>
      obtain ⟨s₀, s₂, hrp⟩ := readPages_mem n s₁ ps s' h p hp
      exact (readPage_ok_shape s₀ p s₂ hrp).1

/-- Witness for C10 at a concrete one-page stream. -/
theorem readPage_invariant_witness :
    ((⟨1, 1, [9, 9, 9]⟩ : PageData).pixels.length =
        (⟨1, 1, [9, 9, 9]⟩ : PageData).width *
          (⟨1, 1, [9, 9, 9]⟩ : PageData).height * 3 ∧
      PageData.new 1 1 [9, 9, 9] = Except.ok ⟨1, 1, [9, 9, 9]⟩) ∧
    ∀ p, p ∈ [(⟨1, 1, [9, 9, 9]⟩ : PageData)] →
      p.pixels.length = p.width * p.height * 3 :=
  ⟨(readPage_invariant ⟨[0, 1, 0, 1, 9, 9, 9], SourceTail.eof⟩).1
      ⟨1, 1, [9, 9, 9]⟩ ⟨[], SourceTail.eof⟩ rfl,
    (readPage_invariant ⟨[0, 1, 0, 1, 0, 1, 9, 9, 9], SourceTail.eof⟩).2
      [⟨1, 1, [9, 9, 9]⟩] ⟨[], SourceTail.eof⟩ rfl⟩

/-- The page the reconstructor builds for an input page record: physical
size from `pixels_to_points`/`points_to_mm`, content the record itself. -/
def pageOf (r : PdfReconstructor) (p : PageData) : PdfPage :=
  ⟨points_to_mm (pixels_to_points r p.width),
    points_to_mm (pixels_to_points r p.height), some p⟩

theorem setPageImage_length (l : List PdfPage) (i : Nat) (p : PageData) :
    (setPageImage l i p).length = l.length := by
  induction l generalizing i with
  | nil => rfl
  | cons x xs ih => cases i <;> simp [setPageImage, ih]

theorem setPageImage_append_last (l : List PdfPage) (pg : PdfPage) (p : PageData) :
    setPageImage (l ++ [pg]) l.length p =
      l ++ [⟨pg.widthMm, pg.heightMm, some p⟩] := by
  induction l with
  | nil => rfl
  | cons x xs ih => simp [setPageImage, ih]

theorem add_page_image_ok_length (doc : PdfDocument) (idx : Nat) (p : PageData)
    (doc' : PdfDocument) (h : add_page_image doc idx p = Except.ok doc') :
    doc'.pages.length = doc.pages.length := by
  unfold add_page_image create_rgb_image at h
  split at h
  · simp at h
  · rename_i img heq
    obtain rfl : PdfDocument.mk doc.title (setPageImage doc.pages idx img) = doc' := by
      simpa using h
    simp [setPageImage_length]

theorem reconstruct_rest_cons_ok (r : PdfReconstructor) (doc : PdfDocument)
    (p : PageData) (ps : List PageData) (hw : 0 < p.width) (hh : 0 < p.height)
    (hlen : p.pixels.length = p.width * p.height * 3) :
    reconstruct_rest r doc (p :: ps) =
      reconstruct_rest r ⟨doc.title, doc.pages ++ [pageOf r p]⟩ ps := by
  have hc : ¬(p.width = 0 ∨ p.height = 0) := by omega
  have hcl : ¬(p.pixels.length < p.width * p.height * 3) := by omega
  simp only [reconstruct_rest, if_neg hc, PdfDocument.add_page, add_page_image,
    create_rgb_image, if_neg hcl, setPageImage_append_last, pageOf]

theorem reconstruct_rest_length_mono (r : PdfReconstructor) (ps : List PageData) :
    ∀ (doc doc' : PdfDocument), reconstruct_rest r doc ps = Except.ok doc' →
      doc.pages.length ≤ doc'.pages.length := by
  induction ps with
  | nil =>
    intro doc doc' h
    obtain rfl : doc = doc' := by simpa [reconstruct_rest] using h
    exact Nat.le_refl _
  | cons p ps ih =>
    intro doc doc' h
    rw [reconstruct_rest] at h
    split at h
    · simp at h
    · dsimp only at h
      rcases hai : add_page_image (doc.add_page
          (points_to_mm (pixels_to_points r p.width))
          (points_to_mm (pixels_to_points r p.height))).1
          (doc.add_page (points_to_mm (pixels_to_points r p.width))
            (points_to_mm (pixels_to_points r p.height))).2 p with rai | doc₂
      · rw [hai] at h
        simp at h
      · rw [hai] at h
        have h' : reconstruct_rest r doc₂ ps = Except.ok doc' := h
        have h₂ := add_page_image_ok_length _ _ _ _ hai
        have h₃ := ih doc₂ doc' h'
        simp only [PdfDocument.add_page, List.length_append] at h₂
        omega

theorem reconstruct_cons_ok (r : PdfReconstructor) (first : PageData)
    (rest : List PageData) (hw : 0 < first.width) (hh : 0 < first.height)
    (hlen : first.pixels.length = first.width * first.height * 3) :
    reconstruct r (first :: rest) =
      reconstruct_rest r ⟨"Dangerzone Safe PDF", [pageOf r first]⟩ rest := by
  have hc : ¬(first.width = 0 ∨ first.height = 0) := by omega
  have hcl : ¬(first.pixels.length < first.width * first.height * 3) := by omega
  simp only [reconstruct, if_neg hc, PdfDocument.new, add_page_image,
    create_rgb_image, if_neg hcl, setPageImage, pageOf]

theorem reconstruct_rest_spec (r : PdfReconstructor) (ps : List PageData) :
    ∀ (doc : PdfDocument),
    (∀ p ∈ ps, 0 < p.width ∧ 0 < p.height ∧
      p.pixels.length = p.width * p.height * 3) →
    ∃ doc', reconstruct_rest r doc ps = Except.ok doc' ∧
      doc'.pages.length = doc.pages.length + ps.length ∧
      (∀ i, i < doc.pages.length →
        doc'.pages.getD i ⟨0, 0, none⟩ = doc.pages.getD i ⟨0, 0, none⟩) ∧
      (∀ i, i < ps.length →
        doc'.pages.getD (doc.pages.length + i) ⟨0, 0, none⟩ =
          pageOf r (ps.getD i ⟨0, 0, []⟩)) := by
  induction ps with
  | nil =>
    intro doc _
    exact ⟨doc, rfl, by simp, fun i _ => rfl, fun i hi => absurd hi (Nat.not_lt_zero i)⟩
  | cons p ps ih =>
    intro doc hv
    obtain ⟨hw, hh, hlen⟩ := hv p (List.mem_cons_self p ps)
    rw [reconstruct_rest_cons_ok r doc p ps hw hh hlen]
    obtain ⟨doc', hok, hlen', hpres, hnew⟩ :=
      ih ⟨doc.title, doc.pages ++ [pageOf r p]⟩
        (fun q hq => hv q (List.mem_cons_of_mem p hq))
    refine ⟨doc', hok, ?_, ?_, ?_⟩
    · simp only [List.length_append, List.length_singleton] at hlen'
      simp only [List.length_cons]
      omega
    · intro i hi
      rw [hpres i (by simp; omega), List.getD_append _ _ _ _ hi]
    · intro i hi
      cases i with
      | zero =>
        have h1 := hpres doc.pages.length (by simp)
        rw [Nat.add_zero, h1, List.getD_append_right _ _ _ _ (Nat.le_refl _),
          Nat.sub_self]
        rfl
      | succ j =>
        have h1 := hnew j (by simpa using hi)
        simp only [List.length_append, List.length_singleton] at h1
        rw [(by omega : doc.pages.length + (j + 1) = doc.pages.length + 1 + j), h1]
        rfl

theorem reconstruct_rest_error_at (r : PdfReconstructor) (ps₁ : List PageData) :
    ∀ (doc : PdfDocument) (p : PageData) (ps₂ : List PageData),
    (∀ q ∈ ps₁, 0 < q.width ∧ 0 < q.height ∧
      q.pixels.length = q.width * q.height * 3) →
    (p.width = 0 ∨ p.height = 0) →
    reconstruct_rest r doc (ps₁ ++ p :: ps₂) =
      Except.error (PdfError.InvalidDimensions p.width p.height) := by
  induction ps₁ with
  | nil =>
    intro doc p ps₂ _ hz
    simp only [List.nil_append, reconstruct_rest, if_pos hz]
  | cons q qs ih =>
    intro doc p ps₂ hv hz
    obtain ⟨hw, hh, hlen⟩ := hv q (List.mem_cons_self q qs)
    rw [List.cons_append, reconstruct_rest_cons_ok r doc q (qs ++ p :: ps₂) hw hh hlen]
    exact ih _ p ps₂ (fun x hx => hv x (List.mem_cons_of_mem q hx)) hz

/-- C8: `reconstruct` on an empty page sequence fails with `NoPages` and
yields no document, and a successful `reconstruct` never yields a document
with zero pages. -/
theorem reconstruct_noPages (r : PdfReconstructor) :
    reconstruct r [] = Except.error PdfError.NoPages ∧
    ∀ ps doc, reconstruct r ps = Except.ok doc → doc.pages ≠ [] := by
  refine ⟨rfl, ?_⟩
  intro ps doc h
  cases ps with
  | nil => simp [reconstruct] at h
  | cons first rest =>
    rw [reconstruct] at h
    split at h
    · simp at h
    · dsimp only at h
      rcases hai : add_page_image (PdfDocument.new "Dangerzone Safe PDF"
          (points_to_mm (pixels_to_points r first.width))
          (points_to_mm (pixels_to_points r first.height))).1
          (PdfDocument.new "Dangerzone Safe PDF"
            (points_to_mm (pixels_to_points r first.width))
            (points_to_mm (pixels_to_points r first.height))).2 first
          with rai | doc₁
      · rw [hai] at h
        simp at h
      · rw [hai] at h
        have h' : reconstruct_rest r doc₁ rest = Except.ok doc := h
        have h₁ := add_page_image_ok_length _ _ _ _ hai
        have h₂ := reconstruct_rest_length_mono r rest doc₁ doc h'
        simp only [PdfDocument.new, List.length_singleton] at h₁
        intro hnil
        rw [hnil] at h₂
        simp only [List.length_nil, Nat.le_zero] at h₂
        omega

/-- Witness for C8: the empty input, and the one-page document produced from
a concrete single-page input. -/
theorem reconstruct_noPages_witness :
    reconstruct ⟨150⟩ [] = Except.error PdfError.NoPages ∧
    (⟨"Dangerzone Safe PDF",
      [⟨points_to_mm (pixels_to_points ⟨150⟩ 1), points_to_mm (pixels_to_points ⟨150⟩ 1),
        some ⟨1, 1, [0, 0, 0]⟩⟩]⟩ : PdfDocument).pages ≠ [] :=
  ⟨(reconstruct_noPages ⟨150⟩).1,
    (reconstruct_noPages ⟨150⟩).2 [⟨1, 1, [0, 0, 0]⟩] _ rfl⟩

/-- C9: for a non-empty sequence of valid page records, `reconstruct`
succeeds with exactly one document page per record, in input order (the
first record sizing the document's initial page), each page's physical size
being `(pixel_dimension / resolution) * 72` points converted to millimetres;
and a record with a zero dimension (after a valid prefix) makes the whole
call fail with `InvalidDimensions{width, height}`. -/
theorem reconstruct_pages_spec (r : PdfReconstructor) (ps : List PageData) :
    (ps ≠ [] →
      (∀ p ∈ ps, 0 < p.width ∧ 0 < p.height ∧
        p.pixels.length = p.width * p.height * 3) →
      ∃ doc, reconstruct r ps = Except.ok doc ∧
        doc.pages.length = ps.length ∧
        ∀ i, i < ps.length →
          (doc.pages.getD i ⟨0, 0, none⟩).image = some (ps.getD i ⟨0, 0, []⟩) ∧
          (doc.pages.getD i ⟨0, 0, none⟩).widthMm =
            ((ps.getD i ⟨0, 0, []⟩).width : ℚ) / r.dpi * 72 * (352778 / 1000000) ∧
          (doc.pages.getD i ⟨0, 0, none⟩).heightMm =
            ((ps.getD i ⟨0, 0, []⟩).height : ℚ) / r.dpi * 72 * (352778 / 1000000)) ∧
    (∀ ps₁ p ps₂, ps = ps₁ ++ p :: ps₂ →
      (∀ q ∈ ps₁, 0 < q.width ∧ 0 < q.height ∧
        q.pixels.length = q.width * q.height * 3) →
      (p.width = 0 ∨ p.height = 0) →
      reconstruct r ps = Except.error (PdfError.InvalidDimensions p.width p.height)) := by
  constructor
  · intro hne hv
    match ps, hne with
    | first :: rest, _ =>
      obtain ⟨hw, hh, hlen⟩ := hv first (List.mem_cons_self first rest)
      rw [reconstruct_cons_ok r first rest hw hh hlen]
      obtain ⟨doc', hok, hlen', hpres, hnew⟩ :=
        reconstruct_rest_spec r rest ⟨"Dangerzone Safe PDF", [pageOf r first]⟩
          (fun q hq => hv q (List.mem_cons_of_mem first hq))
      simp only [List.length_singleton] at hlen' hpres hnew
      refine ⟨doc', hok, by rw [hlen', Nat.add_comm, List.length_cons], ?_⟩
      intro i hi
      cases i with
      | zero =>
        rw [hpres 0 Nat.one_pos]
        exact ⟨rfl, rfl, rfl⟩
      | succ j =>
        have h1 := hnew j (by simpa using hi)
        rw [(by omega : 1 + j = j + 1)] at h1
        rw [h1, List.getD_cons_succ]
        exact ⟨rfl, rfl, rfl⟩
  · intro ps₁ p ps₂ hsplit hv hz
    subst hsplit
    cases ps₁ with
    | nil =>
      simp only [List.nil_append, reconstruct, if_pos hz]
    | cons q qs =>
      obtain ⟨hw, hh, hlen⟩ := hv q (List.mem_cons_self q qs)
      rw [List.cons_append, reconstruct_cons_ok r q (qs ++ p :: ps₂) hw hh hlen]
      exact reconstruct_rest_error_at r qs _ p ps₂
        (fun x hx => hv x (List.mem_cons_of_mem q hx)) hz

/-- Witness for C9: a concrete two-page reconstruction and a concrete
zero-width failure. -/
theorem reconstruct_pages_spec_witness :
    (∃ doc, reconstruct ⟨150⟩ [⟨1, 1, [7, 7, 7]⟩, ⟨2, 1, [0, 0, 0, 0, 0, 0]⟩] =
        Except.ok doc ∧
      doc.pages.length = [(⟨1, 1, [7, 7, 7]⟩ : PageData), ⟨2, 1, [0, 0, 0, 0, 0, 0]⟩].length ∧
      ∀ i, i < [(⟨1, 1, [7, 7, 7]⟩ : PageData), ⟨2, 1, [0, 0, 0, 0, 0, 0]⟩].length →
        (doc.pages.getD i ⟨0, 0, none⟩).image =
          some ([(⟨1, 1, [7, 7, 7]⟩ : PageData), ⟨2, 1, [0, 0, 0, 0, 0, 0]⟩].getD i ⟨0, 0, []⟩) ∧
        (doc.pages.getD i ⟨0, 0, none⟩).widthMm =
          (([(⟨1, 1, [7, 7, 7]⟩ : PageData), ⟨2, 1, [0, 0, 0, 0, 0, 0]⟩].getD i ⟨0, 0, []⟩).width : ℚ) /
            (⟨150⟩ : PdfReconstructor).dpi * 72 * (352778 / 1000000) ∧
        (doc.pages.getD i ⟨0, 0, none⟩).heightMm =
          (([(⟨1, 1, [7, 7, 7]⟩ : PageData), ⟨2, 1, [0, 0, 0, 0, 0, 0]⟩].getD i ⟨0, 0, []⟩).height : ℚ) /
            (⟨150⟩ : PdfReconstructor).dpi * 72 * (352778 / 1000000)) ∧
    reconstruct ⟨150⟩ [⟨1, 1, [5, 5, 5]⟩, ⟨0, 9, []⟩] =
      Except.error (PdfError.InvalidDimensions 0 9) :=
  ⟨(reconstruct_pages_spec ⟨150⟩ [⟨1, 1, [7, 7, 7]⟩, ⟨2, 1, [0, 0, 0, 0, 0, 0]⟩]).1
      (by simp) (by decide),
    (reconstruct_pages_spec ⟨150⟩ [⟨1, 1, [5, 5, 5]⟩, ⟨0, 9, []⟩]).2
      [⟨1, 1, [5, 5, 5]⟩] ⟨0, 9, []⟩ [] rfl (by decide) (Or.inl rfl)⟩

end Dangerzone
